import Mathlib

/-!
Verification of the daugx workflow-graph compiler and scheduler
(`daugx/core/agent/block.py`, `daugx/core/agent/executor.py`,
`daugx/utils/misc.py`, `daugx/core/data/data.py`).

Shallow embedding conventions:
* Python floats are modelled as `ℚ`.
* Images and annotation sets are opaque payloads (`Nat`); pixel-level
  semantics of the augmentation catalog are declared out of scope by the
  spec (§1), so `apply` is modelled as an injective pairing on payloads
  and every invocation is additionally recorded in an event log.
* The shared `np.random.Generator` is modelled as a stream of rationals
  with a cursor; every call to `gen.random()` reads the current value and
  advances the cursor, exactly mirroring the single serialized draw
  sequence of the source.
* Python exceptions are modelled with `Except Err`; mutation of objects is
  modelled by explicit state passing.  Where Python code mutates a shared
  object (blocks held both in `Blocks.__blocks` and in a path dictionary),
  the model threads the owning list and rereads entries by id, which gives
  the same observable behaviour.
-/

set_option maxRecDepth 10000

namespace Daugx

/-- Opaque image payload (`np.ndarray` in the source). -/
abbrev Img := Nat

/-- Opaque annotation-set payload (`Annotations` in the source). -/
abbrev Ann := Nat

/-- One buffered `(image, annotation-set)` pair (`DataPackage.data`). -/
abbrev Pair := Img × Ann

/-- Identifiers.  Raw node ids come from the workflow config (`.raw`);
`new_id` produces uuid5 strings of fresh random draws, modelled as the
position of the consumed draw (`.gen`); `c.DATA_OUTPUT` is the fixed data
key used for the final result (`.out`). -/
inductive BId where
  | raw (n : Nat)
  | gen (n : Nat)
  | out
  deriving DecidableEq, Repr

/-- Python exception kinds raised by the embedded code, plus fuel
exhaustion for the graph recursions. -/
inductive Err where
  | keyError
  | indexError
  | valueError
  | typeError
  | attributeError
  | assertionError
  | zeroDivisionError
  | outOfFuel
  deriving DecidableEq, Repr

instance {ε α : Type} [DecidableEq ε] [DecidableEq α] : DecidableEq (Except ε α) := fun a b =>
  match a, b with
  | .error x, .error y => decidable_of_iff (x = y) (by simp)
  | .error _, .ok _ => .isFalse (by simp)
  | .ok _, .error _ => .isFalse (by simp)
  | .ok x, .ok y => decidable_of_iff (x = y) (by simp)

/-- The shared seeded random generator: a stream of rational draws with a
cursor.  `daugx.utils.misc.get_random` reads one draw and advances. -/
structure RNG where
  vals : Nat → ℚ
  pos : Nat

/-- `daugx.utils.misc.get_random(gen)`: one draw from the shared stream. -/
def get_random (g : RNG) : ℚ × RNG :=
  (g.vals g.pos, ⟨g.vals, g.pos + 1⟩)

/-- `daugx.utils.misc.new_id(gen)`: `uuid5(BASE_UUID, str(gen.random()))`.
The uuid is an injective function of the consumed draw; it is modelled by
the position of that draw in the stream, which is likewise fresh for every
call. -/
def new_id (g : RNG) : BId × RNG :=
  (BId.gen g.pos, ⟨g.vals, g.pos + 1⟩)

/-- `daugx.utils.misc.is_executed(execution_probability, gen)`:
`get_random(gen) < execution_probability`. -/
def is_executed (p : ℚ) (g : RNG) : Bool × RNG :=
  let rg := get_random g
  (decide (rg.1 < p), rg.2)

/-- Python `round` (banker's rounding, round half to even). -/
def pyRound (q : ℚ) : ℤ :=
  let f := ⌊q⌋
  if q - f < 1 / 2 then f
  else if q - f > 1 / 2 then f + 1
  else if f % 2 = 0 then f else f + 1

/-- Python `int` on a float: truncation toward zero. -/
def pyInt (q : ℚ) : ℤ :=
  if q < 0 then -⌊-q⌋ else ⌊q⌋

/-- Accumulator loop of `fetch_by_prob_list`: walk the zipped
`(value, probability)` list keeping the running `prob_sum`, returning the
first value whose cumulative probability exceeds the draw. -/
def fetchAcc {α : Type} (rand : ℚ) : ℚ → List (α × ℚ) → Option α
  | _, [] => none
  | acc, vp :: rest =>
    if rand < acc + vp.2 then some vp.1 else fetchAcc rand (acc + vp.2) rest

/-- `daugx.utils.misc.fetch_by_prob_list(value_list, probability_list, gen)`:
draws `rand`, asserts equal lengths, scans cumulative probabilities and
falls back to `value_list[-1]` when the loop finds nothing (IndexError on
an empty list). -/
def fetch_by_prob_list {α : Type} (value_list : List α) (probability_list : List ℚ)
    (g : RNG) : Except Err α × RNG :=
  let rg := get_random g
  if value_list.length ≠ probability_list.length then (.error .assertionError, rg.2)
  else
    match fetchAcc rg.1 0 (value_list.zip probability_list) with
    | some v => (.ok v, rg.2)
    | none =>
      match value_list.getLast? with
      | some v => (.ok v, rg.2)
      | none => (.error .indexError, rg.2)

/-- `daugx.utils.misc.fetch_by_prob(value_list, probability)`:
`value_list[int(probability * len(value_list))]`, IndexError when out of
range (a negative index, impossible for draws in `[0, 1)`, is also
rejected here). -/
def fetch_by_prob {α : Type} (value_list : List α) (probability : ℚ) : Except Err α :=
  let i := pyInt (probability * value_list.length)
  if i < 0 then .error .indexError
  else
    match value_list.get? i.toNat with
    | some v => .ok v
    | none => .error .indexError

/-! ### Data model: blocks (`daugx/core/agent/block.py`) -/

/-- Block category (`c.NODE_TYPE_INPUT` / `c.NODE_TYPE_AUGMENT`). -/
inductive Category where
  | input
  | augment
  deriving DecidableEq, Repr

/-- The augmentation object bound by an `Augment` block.  The catalog in
`daugx/core/augmentation/augmentations.py` gives each class a structural
`__eq__` over its kind and constructor parameters, and an `inflation`
attribute (0.25 for `Mosaic`, 0.5 for `MixUp`; the base classes in the
absent `daugx/core/augmentation/transforms.py` leave it at 1 — modelled
from the spec: ordinary transforms have `fan_in = 1`).  `className` and
`params` are opaque codes for the class and its parameters. -/
structure Augmentation where
  className : Nat
  params : Nat
  inflation : ℚ
  deriving DecidableEq, Repr

/-- One block object.  The model flattens the `Block` / `Input` / `Augment`
class hierarchy into a single record with a `category` tag; fields only
meaningful for one category are simply unread for the other, as in the
Python objects.  Two Python name-mangling facts are reflected here:
`Input.set` writes `_Input__share` while the `share` property reads
`_Block__share`, so `shareB` (the property) stays `none` for inputs; and
`Input.reset` rebinds a fresh `_Input__input_image_ids` while
`input_image_ids` (the property) keeps reading `_Block__input_image_ids`. -/
structure Blk where
  id : BId
  prev : List BId
  next : List BId
  shares : List ℚ
  category : Category
  isOutput : Bool
  isInput : Bool
  variations : Nat
  is_set : Bool
  shareB : Option ℚ
  ext_exe_prob : ℚ
  int_exe_prob : ℚ
  prev_ext_exe_probs : Option (List ℚ)
  input_image_ids : List BId
  dataset : Nat
  n_total_data : ℚ
  filters : Option (List Nat)
  filterSel : Option Nat
  n_data : Option ℚ
  uses : Nat
  augmentation : Augmentation
  deriving DecidableEq, Repr

/-- `Block._normalize_shares`: the source loop
`for share in self.__shares: share *= (1 / sum(self.__shares))` rebinds the
loop-local name `share` (floats are immutable) and never writes back, so
the stored list is unchanged; the only observable effect is the
`ZeroDivisionError` of `1 / sum` when the list is non-empty with zero sum. -/
def normalize_shares (shares : List ℚ) : Except Err (List ℚ) :=
  if shares ≠ [] ∧ shares.sum = 0 then .error .zeroDivisionError
  else .ok shares

/-- `Augment.inflation` is the property override returning
`self.augmentation.inflation`; `Block.__init__` fixes the base field to 1
(`Input` keeps it). -/
def Blk.inflation (b : Blk) : ℚ :=
  match b.category with
  | .augment => b.augmentation.inflation
  | .input => 1

/-- Category-specific payload of a raw workflow node.  The augmentation
object is bound at parse time (`Augment.__init__` resolves `class_name`
against the catalog); `exe_prob` is the declared fire probability. -/
inductive RawParams where
  | input (dataset : Nat) (n_total_data : ℚ) (filters : Option (List Nat))
  | augment (augmentation : Augmentation) (exe_prob : ℚ)
  deriving DecidableEq, Repr

/-- One raw node descriptor of the workflow config consumed by
`Blocks.build`. -/
structure RawNode where
  id : Nat
  prev : List Nat
  next : List Nat
  shares : List ℚ
  params : RawParams
  deriving DecidableEq, Repr

/-- `Blocks._dict_to_block(...).update()`: parse a raw node into a `Block`
prototype and specialize it into an `Input` or `Augment`.  `Input.__init__`
passes `prev=[]` to the base class, so inputs always have empty `prev` and
`is_input=True`; `is_output` is frozen from the raw `next` and never
recomputed.  The `Input` filters assertion (`len(filters) == variations`)
and the `int_exe_prob` setter assertion (`0 <= p <= 1`) are checked as in
the source. -/
def dict_to_block (r : RawNode) : Except Err Blk := do
  let shares ← normalize_shares r.shares
  match r.params with
  | .input ds total filts =>
    if filts.elim true (fun fs => fs.isEmpty || decide (fs.length = shares.length)) = true then
      .ok
        { id := .raw r.id, prev := [], next := r.next.map .raw, shares := shares,
          category := .input, isOutput := r.next.isEmpty, isInput := true,
          variations := shares.length, is_set := decide (shares.length = 1),
          shareB := none, ext_exe_prob := 1, int_exe_prob := 1,
          prev_ext_exe_probs := none, input_image_ids := [],
          dataset := ds, n_total_data := total, filters := filts,
          filterSel := none, n_data := none, uses := 1,
          augmentation := ⟨0, 0, 1⟩ }
    else .error .assertionError
  | .augment aug exe_prob =>
    if 0 ≤ exe_prob ∧ exe_prob ≤ 1 then
      .ok
        { id := .raw r.id, prev := r.prev.map .raw, next := r.next.map .raw,
          shares := shares, category := .augment, isOutput := r.next.isEmpty,
          isInput := r.prev.isEmpty, variations := shares.length,
          is_set := decide (shares.length = 1), shareB := none,
          ext_exe_prob := 1, int_exe_prob := exe_prob,
          prev_ext_exe_probs := none, input_image_ids := [],
          dataset := 0, n_total_data := 0, filters := none,
          filterSel := none, n_data := none, uses := 1,
          augmentation := aug }
    else .error .assertionError

/-- `Block.set(index)` / `Input.set(index)`.  Both assert
`0 <= index < variations`.  `Block.set` (used by `Augment`) narrows `next`
(unless the block is an output), stores the chosen share and multiplies it
into `ext_exe_prob`.  `Input.set` narrows `next` unconditionally, resolves
the branch filter and `n_data = n_total_data * share` — and, unlike
`Block.set`, never multiplies the share into `ext_exe_prob` (and its
writes to `__share` / `__is_set` land on `_Input`-mangled attributes the
properties never read). -/
def Blk.set (b : Blk) (index : Nat) : Except Err Blk := do
  if index < b.variations then
    match b.category with
    | .input => do
      let nx ← match b.next.get? index with
        | some nx => .ok nx
        | none => .error (Err.indexError)
      let sh ← match b.shares.get? index with
        | some sh => .ok sh
        | none => .error (Err.indexError)
      let fsel ← match b.filters with
        | some [] => .ok b.filterSel
        | some fs =>
          match fs.get? index with
          | some f => .ok (some f)
          | none => .error (Err.indexError)
        | none => .ok b.filterSel
      .ok { b with next := [nx], filterSel := fsel,
                   n_data := some (b.n_total_data * sh) }
    | .augment => do
      let b1 ← if b.isOutput then .ok b
        else
          match b.next.get? index with
          | some nx => .ok { b with next := [nx] }
          | none => .error (Err.indexError)
      let sh ← match b.shares.get? index with
        | some sh => .ok sh
        | none => .error (Err.indexError)
      .ok { b1 with shareB := some sh, ext_exe_prob := b1.ext_exe_prob * sh,
                    is_set := true }
  else .error .assertionError

/-- Python `==` between block objects, as used by the deduplication step.
`Input.__eq__` is constantly `False`; `Augment.__eq__` compares the bound
augmentation objects (structural per-class `__eq__`), the fire probability
and the resolved share (`share` property, i.e. `shareB`). -/
def blkEq (a b : Blk) : Bool :=
  match a.category, b.category with
  | .input, _ => false
  | .augment, .input => false
  | .augment, .augment =>
    a.augmentation == b.augmentation && a.int_exe_prob == b.int_exe_prob
      && a.shareB == b.shareB

/-! ### Graph compiler (`Blocks.build`) -/

/-- Mutable compiler state: the growing `Blocks.__blocks` list and the
shared generator. -/
structure BuildSt where
  blocks : List Blk
  g : RNG

/-- `Blocks._get_block_by_id`: first block with the given id, `None` when
absent. -/
def get_block_by_id (blocks : List Blk) (id_ : BId) : Option Blk :=
  blocks.find? (fun b => b.id == id_)

/-- `Blocks._build_from_block(raw_block, raw_blocks, share_index,
prev_block_id)`: copy the raw prototype under a fresh id, recursively
build the remaining share variants first, set the copy to its branch,
dedup it against the already-built blocks via Python `==` (`blkEq`), wire
the upstream block's `next` to it and accumulate its `prev`, then continue
into the next raw block (silently stopping when `next[0]` is not a raw id,
which is also how a chain ending in an already-built id terminates).
Recursion over the graph is bounded by fuel. -/
def build_from_block : Nat → Blk → List Blk → Nat → Option BId → BuildSt → Except Err BuildSt
  | 0, _, _, _, _, _ => .error .outOfFuel
  | fuel + 1, raw_block, raw_blocks, share_index, prev_block_id, st => do
    let idg := new_id st.g
    let built0 : Blk := { raw_block with id := idg.1 }
    let st1 : BuildSt := ⟨st.blocks, idg.2⟩
    let st2 ← if raw_block.shares.length > share_index + 1 then
        build_from_block fuel raw_block raw_blocks (share_index + 1) prev_block_id st1
      else .ok st1
    let built1 ← built0.set share_index
    match st2.blocks.findIdx? (fun b => blkEq b built1) with
    | none =>
      let built2 := match prev_block_id with
        | some pid => { built1 with prev := [pid] }
        | none => built1
      let blocks1 ← match prev_block_id with
        | some pid =>
          match get_block_by_id st2.blocks pid with
          | some _ => .ok (st2.blocks.map (fun b =>
              if b.id == pid then { b with next := [built1.id] } else b))
          | none => .error Err.attributeError
        | none => .ok st2.blocks
      let blocks2 := blocks1 ++ [built2]
      match built2.next.head? with
      | some nid =>
        match get_block_by_id raw_blocks nid with
        | some next_raw => build_from_block fuel next_raw raw_blocks 0 (some built2.id) ⟨blocks2, st2.g⟩
        | none => .ok ⟨blocks2, st2.g⟩
      | none => .ok ⟨blocks2, st2.g⟩
    | some idx => do
      let existing0 ← match st2.blocks.get? idx with
        | some b => .ok b
        | none => .error Err.indexError
      let blocks1 ← match prev_block_id with
        | some pid =>
          match get_block_by_id st2.blocks pid with
          | some _ => .ok (st2.blocks.map (fun b =>
              if b.id == pid then { b with next := [existing0.id] } else b))
          | none => .error Err.attributeError
        | none => .ok st2.blocks
      let existing1 ← match blocks1.get? idx with
        | some b => .ok b
        | none => .error Err.indexError
      let existing2 := match prev_block_id with
        | some pid =>
          if pid ∈ existing1.prev then existing1
          else { existing1 with prev := existing1.prev ++ [pid] }
        | none => existing1
      let blocks2 := blocks1.set idx existing2
      match existing2.next.head? with
      | some nid =>
        match get_block_by_id raw_blocks nid with
        | some next_raw => build_from_block fuel next_raw raw_blocks 0 (some existing2.id) ⟨blocks2, st2.g⟩
        | none => .ok ⟨blocks2, st2.g⟩
      | none => .ok ⟨blocks2, st2.g⟩

/-- `Blocks._set_ipt_blocks_exe_prob`: multiply every raw input block's
execution probability by its share of the total available data. -/
def set_ipt_blocks_exe_prob (raw_blocks : List Blk) : List Blk :=
  let n_total := ((raw_blocks.filter (fun b => b.category == Category.input)).map
    (fun b => b.n_total_data)).sum
  raw_blocks.map (fun b =>
    if b.category == Category.input then
      { b with ext_exe_prob := b.ext_exe_prob * (b.n_total_data / n_total) }
    else b)

/-- `Blocks._calc_ext_exe_probs(block)`: recursively resolve every
upstream block, then store the list of upstream probabilities and multiply
their sum into this block's `ext_exe_prob` (the property setter asserts
the result stays in `[0, 1]`).  Input blocks are left untouched.  A
dangling `prev` id yields `None` in `prev_blocks` and hence an
`AttributeError`. -/
def calc_ext_exe_probs : Nat → List Blk → BId → Except Err (List Blk)
  | 0, _, _ => .error .outOfFuel
  | fuel + 1, blocks, id_ => do
    let b ← match get_block_by_id blocks id_ with
      | some b => .ok b
      | none => .error Err.attributeError
    if b.isInput then .ok blocks
    else do
      let blocks2 ← b.prev.foldlM (fun bl pid =>
          match get_block_by_id bl pid with
          | some pb => calc_ext_exe_probs fuel bl pb.id
          | none => .error Err.attributeError) blocks
      let prev_ext ← b.prev.mapM (fun pid =>
          match get_block_by_id blocks2 pid with
          | some pb => .ok pb.ext_exe_prob
          | none => .error Err.attributeError)
      let b2 ← match get_block_by_id blocks2 id_ with
        | some b2 => .ok b2
        | none => .error Err.attributeError
      let newExt := prev_ext.sum * b2.ext_exe_prob
      if 0 ≤ newExt ∧ newExt ≤ 1 then
        .ok (blocks2.map (fun x =>
          if x.id == id_ then
            { x with prev_ext_exe_probs := some prev_ext, ext_exe_prob := newExt }
          else x))
      else .error .assertionError

/-- `Blocks.build(raw_block_list)`: parse, weight the input prototypes by
dataset size, expand every input's chain with dedup, then propagate
reachability probabilities backward from every output block
(`_get_output_blocks` raises `ValueError` when there is none). -/
def build (fuel : Nat) (raw_list : List RawNode) (g : RNG) : Except Err BuildSt := do
  let raw_blocks0 ← raw_list.mapM dict_to_block
  let ipts0 := raw_blocks0.filter (fun b => b.category == Category.input)
  if ipts0 ≠ [] ∧ (ipts0.map (fun b => b.n_total_data)).sum = 0 then
    .error .zeroDivisionError
  else do
    let raw_blocks := set_ipt_blocks_exe_prob raw_blocks0
    let ipts := raw_blocks.filter (fun b => b.category == Category.input)
    let st ← ipts.foldlM (fun st b => build_from_block fuel b raw_blocks 0 none st) ⟨[], g⟩
    let outs := st.blocks.filter (fun b => b.isOutput)
    if outs = [] then .error .valueError
    else do
      let blocks ← outs.foldlM (fun bl ob => calc_ext_exe_probs fuel bl ob.id) st.blocks
      .ok ⟨blocks, st.g⟩

/-! ### Concrete workflows used by the claims -/

/-- The all-zero random stream: every draw is 0 (a legal value of
`gen.random()`, which draws from `[0, 1)`). -/
def g0 : RNG := ⟨fun _ => 0, 0⟩

/-- An ordinary single-image augmentation (`fan_in = 1`), e.g. `Rotate`. -/
def augA : Augmentation := ⟨0, 0, 1⟩

/-- A second, structurally different ordinary augmentation. -/
def augB : Augmentation := ⟨2, 0, 1⟩

/-- The 4-way stitch (`Mosaic`), `inflation = 0.25`. -/
def augMosaic : Augmentation := ⟨1, 0, 1 / 4⟩

/-- Scenario A of the spec: one Source → one Transform
(`fan_in = 1`, `fire_probability = 1`) which is the sink. -/
def scenA : List RawNode :=
  [⟨0, [], [1], [1], .input 0 10 none⟩,
   ⟨1, [0], [], [1], .augment augA 1⟩]

/-- A single Source with two equally weighted branches feeding two
structurally different sink Transforms. -/
def scenSplit : List RawNode :=
  [⟨0, [], [1, 2], [1 / 2, 1 / 2], .input 0 10 none⟩,
   ⟨1, [0], [], [1], .augment augA 1⟩,
   ⟨2, [0], [], [1], .augment augB 1⟩]

/-- Two single-branch Sources with item totals `n₁` and `n₂` feeding one
shared sink Transform via independent branches. -/
def scenShared (n₁ n₂ : ℚ) : List RawNode :=
  [⟨0, [], [2], [1], .input 0 n₁ none⟩,
   ⟨1, [], [2], [1], .input 1 n₂ none⟩,
   ⟨2, [0, 1], [], [1], .augment augA 1⟩]

/-- A workflow with no sink: the transform's `next` names an id that does
not exist, so no node has an empty `next`. -/
def scenNoSink : List RawNode :=
  [⟨0, [], [1], [1], .input 0 10 none⟩,
   ⟨1, [0], [99], [1], .augment augA 1⟩]

/-- A workflow with a sink whose Source declares a second branch toward a
nonexistent node id. -/
def scenDangling : List RawNode :=
  [⟨0, [], [1, 2], [1 / 2, 1 / 2], .input 0 10 none⟩,
   ⟨1, [0], [], [1], .augment augA 1⟩]

/-- A workflow whose middle transform declares two shares but only one
`next` branch. -/
def scenMismatch : List RawNode :=
  [⟨0, [], [1], [1], .input 0 10 none⟩,
   ⟨1, [0], [2], [1 / 2, 1 / 2], .augment augA 1⟩,
   ⟨2, [1], [], [1], .augment augB 1⟩]

/-- The uses-weighted reach-probability mass of the Source instances of a
compiled graph (every Source instance of the workflows below reaches a
sink). -/
def input_prob_mass (blocks : List Blk) : ℚ :=
  ((blocks.filter (fun b => b.category == Category.input)).map
    (fun b => b.ext_exe_prob * (b.uses : ℚ))).sum

/-- Number of compiled Transform instances of a graph. -/
def augment_count (blocks : List Blk) : Nat :=
  (blocks.filter (fun b => b.category == Category.augment)).length

/-! ### Path sampler (`Blocks.fetch_path` / `Blocks.root`) -/

/-- `Blocks.reset`: every stored block is reset before a path is sampled.
`Input.reset` sets `self.__uses = 0` (note: 0, not the constructor's 1);
`Augment` inherits `Block.reset`, clearing the pending-input list. -/
def blocks_reset (blocks : List Blk) : List Blk :=
  blocks.map (fun b =>
    match b.category with
    | .input => { b with uses := 0 }
    | .augment => { b with input_image_ids := [] })

/-- Work items of the `Blocks.root` recursion: expand one block upstream,
or perform the remaining `round(1/inflation)` upstream draws of a
confluent block. -/
inductive RootTask where
  | node (bid : BId)
  | iter (k : Nat) (b : Blk) (normed : List ℚ) (ids : List BId)

/-- `Blocks.root(block)`: walk upstream until input blocks are reached,
returning the insertion-ordered id set of the visited blocks.  At a
confluent block (`inflation < 1`) the walk draws `round(1/inflation)`
upstream sub-walks (with replacement), and every input block occurring in
a sub-walk gets `add_use()` applied to the shared stored object; at an
ordinary block exactly one predecessor is drawn, weighted by the
normalized `prev_ext_exe_probs` (a `None` there is the `sum(None)`
`TypeError`; a non-empty zero-sum list is the Python `ZeroDivisionError`
of the normalization).  The store is threaded because `add_use` mutates
the shared block objects. -/
def root_go : Nat → RootTask → List Blk → RNG → Except Err (List BId × List Blk × RNG)
  | 0, _, _, _ => .error .outOfFuel
  | fuel + 1, .node bid, store, g => do
    let b ← match get_block_by_id store bid with
      | some b => .ok b
      | none => .error Err.attributeError
    if b.isInput then .ok ([bid], store, g)
    else do
      let probs ← match b.prev_ext_exe_probs with
        | some ps => .ok ps
        | none => .error Err.typeError
      if probs ≠ [] ∧ probs.sum = 0 then .error .zeroDivisionError
      else do
        let normed := probs.map (fun p => p / probs.sum)
        if b.inflation < 1 then
          if b.inflation = 0 then .error .zeroDivisionError
          else root_go fuel (.iter (pyRound (1 / b.inflation)).toNat b normed [bid]) store g
        else do
          let (chosenE, g1) := fetch_by_prob_list b.prev normed g
          let chosen ← chosenE
          let (subIds, store1, g2) ← root_go fuel (.node chosen) store g1
          let ids2 := subIds.foldl (fun acc vid => if vid ∈ acc then acc else acc ++ [vid]) [bid]
          .ok (ids2, store1, g2)
  | _ + 1, .iter 0 _ _ ids, store, g => .ok (ids, store, g)
  | fuel + 1, .iter (k + 1) b normed ids, store, g => do
    let (chosenE, g1) := fetch_by_prob_list b.prev normed g
    let chosen ← chosenE
    let (subIds, store1, g2) ← root_go fuel (.node chosen) store g1
    let merged := subIds.foldl (fun (acc : List BId × List Blk) vid =>
        let ids1 := if vid ∈ acc.1 then acc.1 else acc.1 ++ [vid]
        let store2 := match get_block_by_id acc.2 vid with
          | some vb =>
            if vb.isInput then
              acc.2.map (fun x => if x.id == vid then { x with uses := x.uses + 1 } else x)
            else acc.2
          | none => acc.2
        (ids1, store2)) (ids, store1)
    root_go fuel (.iter k b normed merged.1) merged.2 g2

/-- `Blocks.root` entry point. -/
def root (fuel : Nat) (store : List Blk) (bid : BId) (g : RNG) :
    Except Err (List BId × List Blk × RNG) :=
  root_go fuel (.node bid) store g

/-- One sampled execution path: the input blocks and augmentation blocks
of the path dictionary, in insertion order. -/
structure Path where
  inputs : List Blk
  augments : List Blk
  deriving DecidableEq, Repr

/-- `Blocks.fetch_path()`: reset all blocks, choose one output block
weighted by `ext_exe_prob` (`_get_output_blocks` raises `ValueError` when
there is none), walk upstream with `root`, and split the visited blocks
into the inputs and augmentations dictionaries. -/
def fetch_path (fuel : Nat) (blocks : List Blk) (g : RNG) :
    Except Err Path × List Blk × RNG :=
  let store := blocks_reset blocks
  let outs := store.filter (fun b => b.isOutput)
  if outs.isEmpty then (.error .valueError, store, g)
  else
    match fetch_by_prob_list outs (outs.map (fun b => b.ext_exe_prob)) g with
    | (.error e, g1) => (.error e, store, g1)
    | (.ok ob, g1) =>
      match root fuel store ob.id g1 with
      | .error e => (.error e, store, g1)
      | .ok (ids, store2, g2) =>
        let pblocks := ids.filterMap (fun i => get_block_by_id store2 i)
        (.ok ⟨pblocks.filter (fun b => b.category == Category.input),
              pblocks.filter (fun b => b.category == Category.augment)⟩, store2, g2)

/-! ### Dataset collaborator (`daugx/core/data/data.py`) -/

/-- A bound dataset: its packages' `(image, annotation)` payloads, the
background fraction with the precomputed background indexes, and the
precomputed per-filter index lists. -/
structure Dataset where
  id : Nat
  data_packages : List Pair
  background_percentage : Option ℚ
  background_indexes : List Nat
  filter_indexes : List (Nat × List Nat)
  deriving DecidableEq, Repr

/-- `Dataset.fetch(filter_)`: draw `rand`; when a background percentage is
configured draw again and, if below it, serve a background item by
`rand`; otherwise serve from the whole package list (no filter) or from
the filter's index list (string filter; a missing filter id is a
`KeyError`).  The list-of-filters branch is not modelled: the executor
only ever passes `None`. -/
def Dataset.fetch (ds : Dataset) (filt : Option Nat) (g : RNG) : Except Err Pair × RNG :=
  let rg := get_random g
  let core : Except Err Pair :=
    match filt with
    | none => fetch_by_prob ds.data_packages rg.1
    | some f =>
      match ds.filter_indexes.find? (fun kv => kv.1 == f) with
      | some kv => do
        let i ← fetch_by_prob kv.2 rg.1
        match ds.data_packages.get? i with
        | some p => .ok p
        | none => .error Err.indexError
      | none => .error Err.keyError
  match ds.background_percentage with
  | some bp =>
    let rg2 := get_random rg.2
    if rg2.1 < bp then
      ((do
        let i ← fetch_by_prob ds.background_indexes rg.1
        match ds.data_packages.get? i with
        | some p => .ok p
        | none => .error Err.indexError), rg2.2)
    else (core, rg2.2)
  | none => (core, rg.2)

/-! ### Scheduler (`daugx/core/agent/executor.py`) -/

/-- Events recording every call to an external collaborator during a
fetch: one `dsFetch` per `Dataset.fetch` call (with the filter argument
actually passed), one `applySingle`/`applyMulti` per invocation of a bound
augmentation's `apply`. -/
inductive Event where
  | dsFetch (dataset : Nat) (filt : Option Nat)
  | applySingle (className : Nat) (image : Img) (annot : Ann)
  | applyMulti (className : Nat) (images : List Img) (annots : List Ann)
  deriving DecidableEq, Repr

/-- Whether an event is an augmentation invocation. -/
def Event.isApply : Event → Bool
  | .dsFetch _ _ => false
  | .applySingle _ _ _ => true
  | .applyMulti _ _ _ => true

/-- Opaque model of a single-image `apply(image, annots)`: an injective
pairing of the augmentation identity with the input payloads (pixel
semantics are out of scope per spec §1). -/
def apply_single (a : Augmentation) (image : Img) (annot : Ann) : Pair :=
  (Nat.pair a.className image + 1, Nat.pair a.params annot + 1)

/-- Opaque model of a multi-image `apply(images, annots_list)`. -/
def apply_multi (a : Augmentation) (images : List Img) (annots : List Ann) : Pair :=
  (Nat.pair a.className (images.foldr Nat.pair 0) + 1,
   Nat.pair a.params (annots.foldr Nat.pair 0) + 1)

/-- `transpose_image`: axis transposition of the pixel buffer, out of
scope pixel-wise (spec §1); the identity on the opaque payload. -/
def transpose_image (image : Img) : Img := image

/-- Per-fetch scheduler state: the block store (mutated by
`fetch_path`'s resets and `add_use`), the bound datasets, the `__data`
buffer (a Python dict in insertion order), the deep-copied path, the
shared generator, and the instrumentation log of collaborator calls. -/
structure ExecSt where
  blocks : List Blk
  datasets : List Dataset
  data : List (BId × Pair)
  path : Path
  g : RNG
  log : List Event

/-- Python dict read: `self.__data[k]`, `None`-free (`KeyError` handled at
call sites). -/
def dictGet (d : List (BId × Pair)) (k : BId) : Option Pair :=
  (d.find? (fun e => e.1 == k)).map (fun e => e.2)

/-- Python dict write `self.__data[k] = v`: update in place when the key
exists, append otherwise. -/
def dictSet (d : List (BId × Pair)) (k : BId) (v : Pair) : List (BId × Pair) :=
  if (d.find? (fun e => e.1 == k)).isSome then
    d.map (fun e => if e.1 == k then (k, v) else e)
  else d ++ [(k, v)]

/-- Python `del self.__data[k]`: `KeyError` when absent. -/
def dictDel (d : List (BId × Pair)) (k : BId) : Except Err (List (BId × Pair)) :=
  if (d.find? (fun e => e.1 == k)).isSome then .ok (d.filter (fun e => e.1 != k))
  else .error .keyError

/-- `Executor._exec_input_block`: copy the buffered value to the new
data-id (a deepcopy, i.e. a value copy) and delete the consumed entry. -/
def exec_input_block (data_id new_data_id : BId) (st : ExecSt) :
    Except Err Unit × ExecSt :=
  match dictGet st.data data_id with
  | none => (.error .keyError, st)
  | some v =>
    let d1 := dictSet st.data new_data_id v
    match dictDel d1 data_id with
    | .error e => (.error e, { st with data := d1 })
    | .ok d2 => (.ok (), { st with data := d2 })

/-- `Augment.execute` on a single buffered sample, with the invocation
recorded. -/
def execute_single (b : Blk) (p : Pair) (st : ExecSt) : Pair × ExecSt :=
  (apply_single b.augmentation p.1 p.2,
   { st with log := st.log ++ [Event.applySingle b.augmentation.className p.1 p.2] })

/-- `Augment.execute` on a list of buffered samples, with the invocation
recorded. -/
def execute_multi (b : Blk) (images : List Img) (annots : List Ann) (st : ExecSt) :
    Pair × ExecSt :=
  (apply_multi b.augmentation images annots,
   { st with log := st.log ++ [Event.applyMulti b.augmentation.className images annots] })

/-- `Executor._exec_inflationary_block`: append the data-id to the block's
pending-input list (an in-place mutation of the path's block object,
modelled by updating the path entry immediately); once the list length
reaches `round(1 / inflation)`, deep-copy the buffered pairs in arrival
order, invoke the augmentation once with the image list and annotation
list, bind the result to the new data-id, delete all consumed entries and
reset the block (clearing the pending list).  Below the threshold nothing
else happens — the block is left waiting.  The final
`self.__path[...][block.id] = block` of the source re-inserts the same
object and is a no-op here. -/
def exec_inflationary_block (b : Blk) (data_id new_data_id : BId) (st : ExecSt) :
    Except Err Blk × ExecSt :=
  let b1 := { b with input_image_ids := b.input_image_ids ++ [data_id] }
  let st1 := { st with path := { st.path with
    augments := st.path.augments.map (fun x => if x.id == b1.id then b1 else x) } }
  if b1.inflation = 0 then (.error .zeroDivisionError, st1)
  else if b1.input_image_ids.length = (pyRound (1 / b1.inflation)).toNat then
    match b1.input_image_ids.mapM (fun i => dictGet st1.data i) with
    | none => (.error .keyError, st1)
    | some data_list =>
      let r := execute_multi b1 (data_list.map (fun p => p.1)) (data_list.map (fun p => p.2)) st1
      let d1 := dictSet r.2.data new_data_id r.1
      match b1.input_image_ids.foldlM (fun d i => dictDel d i) d1 with
      | .error e => (.error e, { r.2 with data := d1 })
      | .ok d2 =>
        let b2 := { b1 with input_image_ids := [] }
        let path2 : Path := { r.2.path with
          augments := r.2.path.augments.map (fun x => if x.id == b2.id then b2 else x) }
        (.ok b2, { r.2 with data := d2, path := path2 })
  else (.ok b1, st1)

/-- `Executor._exec_augment_block`: draw the fire decision from the shared
generator.  If fired and the block is confluent, delegate to the
inflationary handler (consumed entries are deleted only when the
confluence completes).  If fired and ordinary, apply the augmentation to
the single buffered sample.  If not fired, copy the buffered value through
unchanged — note that this skip path never touches the pending-input
list, whatever the block's fan-in.  In the last two cases the consumed
entry is deleted. -/
def exec_augment_block (b : Blk) (data_id new_data_id : BId) (st : ExecSt) :
    Except Err Blk × ExecSt :=
  let ex := is_executed b.int_exe_prob st.g
  let st0 := { st with g := ex.2 }
  if ex.1 then
    if b.inflation < 1 then
      exec_inflationary_block b data_id new_data_id st0
    else
      match dictGet st0.data data_id with
      | none => (.error .keyError, st0)
      | some v =>
        let r := execute_single b v st0
        let d1 := dictSet r.2.data new_data_id r.1
        match dictDel d1 data_id with
        | .error e => (.error e, { r.2 with data := d1 })
        | .ok d2 => (.ok b, { r.2 with data := d2 })
  else
    match dictGet st0.data data_id with
    | none => (.error .keyError, st0)
    | some v =>
      let d1 := dictSet st0.data new_data_id v
      match dictDel d1 data_id with
      | .error e => (.error e, { st0 with data := d1 })
      | .ok d2 => (.ok b, { st0 with data := d2 })

/-- `Executor._propagate(block, data_id)`: generate the new data-id,
execute the block; a confluent block with a non-empty pending list stops
the branch (waiting); an output block records the buffered value under the
output key; otherwise recurse into the single downstream block, looked up
in the path's augmentations dictionary (`KeyError` when absent). -/
def propagate : Nat → Blk → BId → ExecSt → Except Err Unit × ExecSt
  | 0, _, _, st => (.error .outOfFuel, st)
  | fuel + 1, b, data_id, st =>
    let ng := new_id st.g
    let new_data_id := ng.1
    let st1 := { st with g := ng.2 }
    if b.isInput then
      match exec_input_block data_id new_data_id st1 with
      | (.error e, st2) => (.error e, st2)
      | (.ok _, st2) =>
        if b.isOutput then
          match dictGet st2.data new_data_id with
          | some v => (.ok (), { st2 with data := dictSet st2.data BId.out v })
          | none => (.error .keyError, st2)
        else
          match b.next.head? with
          | none => (.error .indexError, st2)
          | some nid =>
            match st2.path.augments.find? (fun x => x.id == nid) with
            | some nb => propagate fuel nb new_data_id st2
            | none => (.error .keyError, st2)
    else
      match exec_augment_block b data_id new_data_id st1 with
      | (.error e, st2) => (.error e, st2)
      | (.ok b', st2) =>
        if b'.inflation < 1 ∧ b'.input_image_ids ≠ [] then (.ok (), st2)
        else
          if b'.isOutput then
            match dictGet st2.data new_data_id with
            | some v => (.ok (), { st2 with data := dictSet st2.data BId.out v })
            | none => (.error .keyError, st2)
          else
            match b'.next.head? with
            | none => (.error .indexError, st2)
            | some nid =>
              match st2.path.augments.find? (fun x => x.id == nid) with
              | some nb => propagate fuel nb new_data_id st2
              | none => (.error .keyError, st2)

/-- One iteration of the seeding loop of `Executor._execute_path`: a fresh
data-id, one dataset draw — `Dataset.fetch()` is called with no filter
argument — and one propagation from the input block. -/
def exec_use (fuel : Nat) (ib : Blk) (st : ExecSt) : Except Err Unit × ExecSt :=
  let ng := new_id st.g
  let data_id := ng.1
  let st1 := { st with g := ng.2 }
  match st1.datasets.find? (fun d => d.id == ib.dataset) with
  | none => (.error .keyError, st1)
  | some ds =>
    let st2 := { st1 with log := st1.log ++ [Event.dsFetch ds.id none] }
    match ds.fetch none st2.g with
    | (.error e, g2) => (.error e, { st2 with g := g2 })
    | (.ok v, g2) =>
      propagate fuel ib data_id
        { st2 with g := g2, data := dictSet st2.data data_id v }

/-- The `for _ in range(input_block.uses)` loop of
`Executor._execute_path`. -/
def exec_uses (fuel : Nat) (ib : Blk) : Nat → ExecSt → Except Err Unit × ExecSt
  | 0, st => (.ok (), st)
  | k + 1, st =>
    match exec_use fuel ib st with
    | (.error e, st1) => (.error e, st1)
    | (.ok _, st1) => exec_uses fuel ib k st1

/-- The outer loop of `Executor._execute_path` over the path's input
blocks. -/
def exec_inputs (fuel : Nat) : List Blk → ExecSt → Except Err Unit × ExecSt
  | [], st => (.ok (), st)
  | ib :: rest, st =>
    match exec_uses fuel ib ib.uses st with
    | (.error e, st1) => (.error e, st1)
    | (.ok _, st1) => exec_inputs fuel rest st1

/-- `Executor._execute_path()`: seed every input block `uses` times, then
return the entry under the output key (`KeyError` when propagation never
reached a sink). -/
def execute_path (fuel : Nat) (st : ExecSt) : Except Err Pair × ExecSt :=
  match exec_inputs fuel st.path.inputs st with
  | (.error e, st1) => (.error e, st1)
  | (.ok _, st1) =>
    match dictGet st1.data BId.out with
    | some v => (.ok v, st1)
    | none => (.error .keyError, st1)

/-- The prelude of `Executor.fetch()`: `_reset()` (clear the data buffer
and the previous path), then install a deep copy of
`Blocks.fetch_path()` — the resets and `add_use` mutations of `fetch_path`
land on the shared block store.  The per-fetch call log starts empty. -/
def exec_prelude (fuel : Nat) (st : ExecSt) : Except Err Unit × ExecSt :=
  let st0 := { st with data := [], path := (⟨[], []⟩ : Path), log := [] }
  match fetch_path fuel st0.blocks st0.g with
  | (.error e, blocks1, g1) => (.error e, { st0 with blocks := blocks1, g := g1 })
  | (.ok path, blocks1, g1) => (.ok (), { st0 with blocks := blocks1, g := g1, path := path })

/-- `Executor.fetch()`: prelude, execute the path, and return the
transposed image with its annotations. -/
def executor_fetch (fuel : Nat) (st : ExecSt) : Except Err Pair × ExecSt :=
  match exec_prelude fuel st with
  | (.error e, st1) => (.error e, st1)
  | (.ok _, st1) =>
    match execute_path fuel st1 with
    | (.error e, st2) => (.error e, st2)
    | (.ok v, st2) => (.ok (transpose_image v.1, v.2), st2)

/-- `Executor.__init__`: compile the raw block list and bind the datasets;
the same generator is shared by compilation, path sampling, the scheduler
and every dataset. -/
def executor_init (fuel : Nat) (raw_list : List RawNode) (datasets : List Dataset)
    (g : RNG) : Except Err ExecSt :=
  match build fuel raw_list g with
  | .error e => .error e
  | .ok bst => .ok { blocks := bst.blocks, datasets := datasets, data := [],
                     path := (⟨[], []⟩ : Path), g := bst.g, log := [] }

/-- End-to-end fetch as the `Agent` drives it: compile once, fetch once. -/
def agent_fetch (fuel : Nat) (raw_list : List RawNode) (datasets : List Dataset)
    (g : RNG) : Except Err Pair :=
  match executor_init fuel raw_list datasets g with
  | .error e => .error e
  | .ok st => (executor_fetch fuel st).1

/-! ### Executor scenarios -/

/-- A plain two-item dataset with no background fraction and no filters. -/
def dsPlain : Dataset := ⟨0, [(10, 20), (11, 21)], none, [], []⟩

/-- Scenario C of the spec: one Source → confluent Transform
(`fan_in = 0.25`, `fire_probability = 1`) → sink. -/
def scenC : List RawNode :=
  [⟨0, [], [1], [1], .input 0 10 none⟩,
   ⟨1, [0], [], [1], .augment augMosaic 1⟩]

/-- A dataset whose filter 7 admits only package index 1 (the pair
`(2, 2)`); package index 0 is the pair `(1, 1)`, outside the filter. -/
def dsFiltered : Dataset := ⟨0, [(1, 1), (2, 2)], none, [], [(7, [1])]⟩

/-- Scenario C with a source declaring filter 7 for its single branch. -/
def scenCF : List RawNode :=
  [⟨0, [], [1], [1], .input 0 10 (some [7])⟩,
   ⟨1, [0], [], [1], .augment augMosaic 1⟩]

/-- The state of the Scenario-C executor after the prelude and the first
`k` iterations of the seeding loop of its sole input block (the full
seeding loop is `k = uses = 4`). -/
def c4_after (k : Nat) : Except Err ExecSt :=
  match executor_init 20 scenC [dsPlain] g0 with
  | .error e => .error e
  | .ok st =>
    match exec_prelude 20 st with
    | (.error e, _) => .error e
    | (.ok _, st1) =>
      match st1.path.inputs.head? with
      | none => .error .keyError
      | some ib =>
        match exec_uses 20 ib k st1 with
        | (.error e, _) => .error e
        | (.ok _, st2) => .ok st2

/-! ### Theorems -/

theorem fetchAcc_mem {α : Type} (rand : ℚ) :
    ∀ (l : List (α × ℚ)) (acc : ℚ) (v : α),
      fetchAcc rand acc l = some v → v ∈ l.map Prod.fst := by
  intro l
  induction l with
  | nil => intro acc v h; simp [fetchAcc] at h
  | cons hd tl ih =>
    intro acc v h
    rw [fetchAcc] at h
    by_cases hc : rand < acc + hd.2
    · simp [hc] at h
      simp [h]
    · simp [hc] at h
      simpa using Or.inr (ih (acc + hd.2) v h)

theorem fetchAcc_none {α : Type} (rand : ℚ) :
    ∀ (l : List (α × ℚ)) (acc : ℚ),
      (∀ p ∈ l.map Prod.snd, 0 ≤ p) → acc + (l.map Prod.snd).sum ≤ rand →
      fetchAcc rand acc l = none := by
  intro l
  induction l with
  | nil => intro acc _ _; rfl
  | cons hd tl ih =>
    intro acc hnn hsum
    rw [fetchAcc]
    have hrest : 0 ≤ (tl.map Prod.snd).sum := by
      apply List.sum_nonneg
      intro p hp
      exact hnn p (by simp [hp])
    have hle : acc + hd.2 + (tl.map Prod.snd).sum ≤ rand := by
      have := hsum
      simp [List.sum_cons] at this
      linarith
    have hnotlt : ¬ rand < acc + hd.2 := by
      intro hlt
      linarith
    rw [if_neg hnotlt]
    exact ih (acc + hd.2) (fun p hp => hnn p (by simp [hp])) hle

/-- C10: `fetch_by_prob_list` is total on non-empty value lists of matching
length: it always returns some element of the value list, and when the
cumulative probabilities never exceed the draw (in particular when the
probabilities are non-negative and sum to at most the draw) it falls back
to the last element. -/
theorem fetch_by_prob_list_total {α : Type} (vs : List α) (ps : List ℚ) (g : RNG)
    (hne : vs ≠ []) (hlen : vs.length = ps.length) :
    (∃ v, (fetch_by_prob_list vs ps g).1 = .ok v ∧ v ∈ vs) ∧
      ((∀ p ∈ ps, 0 ≤ p) → ps.sum ≤ g.vals g.pos →
        ∀ w, vs.getLast? = some w → (fetch_by_prob_list vs ps g).1 = .ok w) := by
  constructor
  · rw [fetch_by_prob_list]
    simp only [get_random, hlen, ne_eq, not_true_eq_false, if_false]
    match hm : fetchAcc (g.vals g.pos) 0 (vs.zip ps) with
    | some v =>
      refine ⟨v, rfl, ?_⟩
      have := fetchAcc_mem (g.vals g.pos) (vs.zip ps) 0 v hm
      rwa [List.map_fst_zip vs ps (le_of_eq hlen)] at this
    | none =>
      match hl : vs.getLast? with
      | some v =>
        exact ⟨v, rfl, List.mem_of_mem_getLast? hl⟩
      | none =>
        exact absurd (List.getLast?_isSome.mpr hne) (by simp [hl])
  · intro hnn hsum w hw
    rw [fetch_by_prob_list]
    simp only [get_random, hlen, ne_eq, not_true_eq_false, if_false]
    have hz : ((vs.zip ps).map Prod.snd).sum ≤ g.vals g.pos := by
      rw [List.map_snd_zip vs ps (ge_of_eq hlen)]
      simpa using hsum
    have hnnz : ∀ p ∈ (vs.zip ps).map Prod.snd, 0 ≤ p := by
      rw [List.map_snd_zip vs ps (ge_of_eq hlen)]
      exact hnn
    have h0 : (0 : ℚ) + ((vs.zip ps).map Prod.snd).sum ≤ g.vals g.pos := by
      simpa using hz
    rw [fetchAcc_none (g.vals g.pos) (vs.zip ps) 0 hnnz h0, hw]

/-- Witness for C10 at a concrete input. -/
theorem fetch_by_prob_list_total_witness :
    ([3, 7] : List Nat) ≠ [] ∧ ([3, 7] : List Nat).length = [(1 : ℚ)/4, 1/4].length ∧
      (∃ v, (fetch_by_prob_list [3, 7] [(1 : ℚ)/4, 1/4] ⟨fun _ => 9/10, 0⟩).1 = .ok v ∧
        v ∈ [3, 7]) := by
  refine ⟨by decide, by decide, ?_⟩
  exact (fetch_by_prob_list_total [3, 7] [(1 : ℚ)/4, 1/4] ⟨fun _ => 9/10, 0⟩
    (by decide) (by decide)).1

/-! ### Dictionary helper lemmas -/

theorem find?_update_other (d : List (BId × Pair)) (k k' : BId) (v : Pair) (h : k' ≠ k) :
    (d.map (fun e => if e.1 == k then (k, v) else e)).find? (fun e => e.1 == k')
      = d.find? (fun e => e.1 == k') := by
  induction d with
  | nil => rfl
  | cons e rest ih =>
    rw [List.map_cons]
    by_cases he : e.1 = k
    · have hif : (if (e.1 == k) = true then (k, v) else e) = (k, v) := by simp [he]
      rw [hif, List.find?_cons_of_neg _ (by simp [Ne.symm h]),
        List.find?_cons_of_neg _ (by simp [he, Ne.symm h])]
      exact ih
    · have hif : (if (e.1 == k) = true then (k, v) else e) = e := by simp [he]
      rw [hif]
      by_cases hk' : e.1 = k'
      · rw [List.find?_cons_of_pos _ (by simp [hk']), List.find?_cons_of_pos _ (by simp [hk'])]
      · rw [List.find?_cons_of_neg _ (by simp [hk']), List.find?_cons_of_neg _ (by simp [hk'])]
        exact ih

theorem find?_dictSet_other (d : List (BId × Pair)) (k k' : BId) (v : Pair) (h : k' ≠ k) :
    (dictSet d k v).find? (fun e => e.1 == k') = d.find? (fun e => e.1 == k') := by
  rw [dictSet]
  split
  · exact find?_update_other d k k' v h
  · rw [List.find?_append]
    have h2 : (((k, v) : BId × Pair).1 == k') = false := by simp [Ne.symm h]
    cases hd : d.find? (fun e => e.1 == k') <;> simp [List.find?_cons, h2]

theorem dictGet_dictSet_self (d : List (BId × Pair)) (k : BId) (v : Pair) :
    dictGet (dictSet d k v) k = some v := by
  rw [dictGet, dictSet]
  split
  · rename_i hsome
    induction d with
    | nil => simp at hsome
    | cons e rest ih =>
      by_cases he : e.1 = k
      · have hif : (if (e.1 == k) = true then (k, v) else e) = (k, v) := by simp [he]
        rw [List.map_cons, hif, List.find?_cons_of_pos _ (by simp)]
        rfl
      · have hif : (if (e.1 == k) = true then (k, v) else e) = e := by simp [he]
        rw [List.map_cons, hif, List.find?_cons_of_neg _ (by simp [he])]
        apply ih
        rw [List.find?_cons_of_neg _ (by simp [he])] at hsome
        exact hsome
  · rw [List.find?_append]
    rename_i hnone
    have : d.find? (fun e => e.1 == k) = none := by
      cases hd : d.find? (fun e => e.1 == k) with
      | none => rfl
      | some x => rw [hd] at hnone; simp at hnone
    rw [this, List.find?_cons_of_pos _ (by simp)]
    rfl

theorem dictGet_filter_self (d : List (BId × Pair)) (k : BId) :
    dictGet (d.filter (fun e => e.1 != k)) k = none := by
  rw [dictGet]
  have : (d.filter (fun e => e.1 != k)).find? (fun e => e.1 == k) = none := by
    rw [List.find?_eq_none]
    intro x hx
    have := (List.mem_filter.mp hx).2
    simpa using this
  rw [this]
  rfl

theorem dictGet_filter_other (d : List (BId × Pair)) (k k' : BId) (h : k' ≠ k) :
    dictGet (d.filter (fun e => e.1 != k)) k' = dictGet d k' := by
  rw [dictGet, dictGet]
  congr 1
  induction d with
  | nil => rfl
  | cons e rest ih =>
    by_cases he : e.1 = k
    · rw [List.filter_cons_of_neg (by simp [he]),
        List.find?_cons_of_neg _ (by simp [he, Ne.symm h])]
      exact ih
    · rw [List.filter_cons_of_pos (by simp [he])]
      by_cases hk' : e.1 = k'
      · rw [List.find?_cons_of_pos _ (by simp [hk']), List.find?_cons_of_pos _ (by simp [hk'])]
      · rw [List.find?_cons_of_neg _ (by simp [hk']), List.find?_cons_of_neg _ (by simp [hk'])]
        exact ih

/-! ### Claim theorems

The `Rat` arithmetic operations are `@[irreducible]` in Batteries; they
are made semireducible locally so that concrete executions of the
embedded code can be evaluated by `decide`. -/

section
attribute [local semireducible] Rat.add Rat.mul Rat.sub Rat.inv

/-- C1: the claim says that for Scenario A (one Source → one Transform
with `fan_in = 1`, `fire_probability = 1` which is the sink) every
`Executor.fetch()` applies the transform exactly once and returns its
result, the Source's `uses` being 1 when the path executes.  The code
violates this: `Blocks.fetch_path` resets every Input's `uses` to 0 and
the non-confluent `root` walk never calls `add_use`, so the seeding loop
`for _ in range(input_block.uses)` runs zero times, no dataset draw and no
augmentation invocation happens (empty call log), and `fetch` dies with a
`KeyError` on the absent output entry. -/
theorem c1_scenarioA_uses_reset_breaks_fetch :
    (executor_init 20 scenA [dsPlain] g0).map (fun st =>
      let r := executor_fetch 20 st
      (r.1, r.2.log, r.2.path.inputs.map (fun b => b.uses)))
      = .ok (.error .keyError, [], [0]) := by
  decide

/-- C2: the claim says shares are renormalized to sum to 1 at
construction and stay so.  In the code `Block._normalize_shares` is a
no-op (the loop rebinds its local variable), so a raw node with shares
`[1, 3]` keeps them verbatim — their sum is 4, not 1.  The general
conjunct shows the stored shares always equal the raw input shares. -/
theorem c2_normalize_shares_is_noop :
    (∀ s : List ℚ, s.sum ≠ 0 → normalize_shares s = .ok s) ∧
    (Except.map (fun b => b.shares)
        (dict_to_block ⟨0, [], [1, 2], [1, 3], .input 0 10 none⟩) = .ok [(1 : ℚ), 3]) ∧
    ([(1 : ℚ), 3].sum = 4 ∧ (4 : ℚ) ≠ 1) := by
  refine ⟨?_, by decide, by decide, by norm_num⟩
  intro s hs
  rw [normalize_shares, if_neg]
  intro hc
  exact hs hc.2

/-- Witness for C2's general conjunct at a concrete input. -/
theorem c2_normalize_shares_is_noop_witness :
    ([(1 : ℚ), 3].sum ≠ 0) ∧ normalize_shares [(1 : ℚ), 3] = .ok [1, 3] :=
  ⟨by norm_num, c2_normalize_shares_is_noop.1 [(1 : ℚ), 3] (by norm_num)⟩

/-- C3 counterexample: compiling a workflow with a single Source that
declares two equally weighted branches to two different sink Transforms
yields a uses-weighted Source probability mass of 2, not 1, and each of
the two compiled Source instances carries `ext_exe_prob = 1` — the
resolved branch share (1/2) is never folded in, because `Input.set`
(unlike `Block.set`) does not multiply the share into the probability. -/
theorem c3_counterexample :
    (build 12 scenSplit g0).map (fun st => input_prob_mass st.blocks) = .ok 2 ∧
    (build 12 scenSplit g0).map (fun st => input_prob_mass st.blocks) ≠ .ok 1 ∧
    (build 12 scenSplit g0).map (fun st =>
      (st.blocks.filter (fun b => b.category == Category.input)).map
        (fun b => b.ext_exe_prob)) = .ok [1, 1] := by
  refine ⟨by decide, by decide, by decide⟩

/-- C3 as amended: setting an Input block to a branch never changes its
`external_reach_prob` (the resolved share is not folded in, unlike
`Block.set` for Transforms, which multiplies the chosen share in), so a
compiled Source instance carries only its dataset-size weight
(`total / Σ totals`); the uses-weighted sum over sink-reaching Source
instances therefore equals 1 for workflows whose Sources each declare a
single branch, verified on the shared-transform two-source workflow with
item totals 100/300 and 7/13. -/
theorem c3_amended :
    (∀ (b : Blk) (i : Nat) (b' : Blk), b.category = Category.input →
        Blk.set b i = .ok b' → b'.ext_exe_prob = b.ext_exe_prob) ∧
    (∀ (b : Blk) (i : Nat) (b' : Blk), b.category = Category.augment →
        Blk.set b i = .ok b' →
        ∃ sh, b.shares.get? i = some sh ∧ b'.ext_exe_prob = b.ext_exe_prob * sh) ∧
    ((build 12 (scenShared 100 300) g0).map (fun st => input_prob_mass st.blocks) = .ok 1 ∧
     (build 12 (scenShared 100 300) g0).map (fun st =>
       (st.blocks.filter (fun b => b.category == Category.input)).map
         (fun b => b.ext_exe_prob)) = .ok [(100 : ℚ) / 400, 300 / 400]) ∧
    (build 12 (scenShared 7 13) g0).map (fun st => input_prob_mass st.blocks) = .ok 1 := by
  refine ⟨?_, ?_, ⟨by decide, by decide⟩, by decide⟩
  · intro b i b' hcat h
    rw [Blk.set, hcat] at h
    dsimp only [bind, Except.bind] at h
    repeat' split at h
    all_goals cases h
    all_goals exact rfl
  · intro b i b' hcat h
    rw [Blk.set, hcat] at h
    dsimp only [bind, Except.bind] at h
    repeat' split at h
    all_goals cases h
    · exact ⟨_, by assumption, rfl⟩
    · exact ⟨_, by assumption, rfl⟩

/-- Witness for C3's general conjunct: setting the sole branch of a
concrete Input block leaves its `ext_exe_prob` untouched. -/
theorem c3_amended_witness :
    (⟨BId.raw 0, [], [BId.raw 1], [1], Category.input, false, true, 1, true, none,
        1, 1, none, [], 0, 10, none, none, none, 1, augA⟩ : Blk).category
      = Category.input ∧
    Blk.set
        ⟨BId.raw 0, [], [BId.raw 1], [1], Category.input, false, true, 1, true, none,
          1, 1, none, [], 0, 10, none, none, none, 1, augA⟩ 0
      = .ok ⟨BId.raw 0, [], [BId.raw 1], [1], Category.input, false, true, 1, true, none,
          1, 1, none, [], 0, 10, none, none, some 10, 1, augA⟩ ∧
    (⟨BId.raw 0, [], [BId.raw 1], [1], Category.input, false, true, 1, true, none,
        1, 1, none, [], 0, 10, none, none, some 10, 1, augA⟩ : Blk).ext_exe_prob
      = (⟨BId.raw 0, [], [BId.raw 1], [1], Category.input, false, true, 1, true, none,
          1, 1, none, [], 0, 10, none, none, none, 1, augA⟩ : Blk).ext_exe_prob :=
  ⟨rfl, by decide, c3_amended.1 _ 0 _ rfl (by decide)⟩

/-- C4: a confluent Transform with `fan_in = 0.25` never invokes its
augmentation before 4 buffered samples arrive: below the threshold
`_exec_inflationary_block` only appends the data-id to the pending list
(no log entry, no data change, no draw, no error — the operator is left
waiting), shown generally in the first conjunct; in the concrete
Scenario-C run, after 1, 2 and 3 seeding iterations there is no
augmentation invocation, no output entry and the pending list holds
exactly that many ids, and the 4th iteration invokes the augmentation
exactly once with the full ordered list of the 4 buffered pairs, deletes
all 4 consumed entries and clears the pending list; the full fetch then
returns exactly that single invocation's result. -/
theorem c4_confluence_threshold :
    (∀ (b : Blk) (did ndid : BId) (st : ExecSt),
        b.category = Category.augment → b.augmentation.inflation = 1 / 4 →
        b.input_image_ids.length + 1 ≠ 4 →
        (exec_inflationary_block b did ndid st).1
            = .ok { b with input_image_ids := b.input_image_ids ++ [did] } ∧
        (exec_inflationary_block b did ndid st).2.log = st.log ∧
        (exec_inflationary_block b did ndid st).2.data = st.data ∧
        (exec_inflationary_block b did ndid st).2.g = st.g) ∧
    ((c4_after 1).map (fun st => (st.log.filter Event.isApply, dictGet st.data BId.out,
        st.path.augments.map (fun b => b.input_image_ids.length))) = .ok ([], none, [1]) ∧
     (c4_after 2).map (fun st => (st.log.filter Event.isApply, dictGet st.data BId.out,
        st.path.augments.map (fun b => b.input_image_ids.length))) = .ok ([], none, [2]) ∧
     (c4_after 3).map (fun st => (st.log.filter Event.isApply, dictGet st.data BId.out,
        st.path.augments.map (fun b => b.input_image_ids.length))) = .ok ([], none, [3])) ∧
    (c4_after 3).map (fun st => (st.path.augments.map (fun b => b.input_image_ids),
        st.data.map Prod.fst))
      = .ok ([[BId.gen 9, BId.gen 14, BId.gen 19]], [BId.gen 9, BId.gen 14, BId.gen 19]) ∧
    (c4_after 4).map (fun st => (st.log, st.path.augments.map (fun b => b.input_image_ids)))
      = .ok ([Event.dsFetch 0 none, Event.dsFetch 0 none, Event.dsFetch 0 none,
              Event.dsFetch 0 none, Event.applyMulti 1 [10, 10, 10, 10] [20, 20, 20, 20]],
             [[]]) ∧
    (c4_after 4).map (fun st => st.data.map Prod.fst) = .ok [BId.gen 25, BId.out] ∧
    (c4_after 4).map (fun st => dictGet st.data BId.out)
      = .ok (some (apply_multi augMosaic [10, 10, 10, 10] [20, 20, 20, 20])) ∧
    (executor_init 20 scenC [dsPlain] g0).map (fun st => (executor_fetch 20 st).1)
      = .ok (.ok (apply_multi augMosaic [10, 10, 10, 10] [20, 20, 20, 20])) := by
  refine ⟨?_, ⟨by decide, by decide, by decide⟩, by decide, by decide, by decide, by decide,
    by decide⟩
  intro b did ndid st hcat hinf hlen
  have h1 : Blk.inflation { b with input_image_ids := b.input_image_ids ++ [did] } = 1 / 4 := by
    simp [Blk.inflation, hcat, hinf]
  have hps : (pyRound (1 / (1 / 4 : ℚ))).toNat = 4 := by decide
  have hlen2 : ({ b with input_image_ids := b.input_image_ids ++ [did] } : Blk).input_image_ids.length
      ≠ (pyRound (1 / Blk.inflation { b with input_image_ids := b.input_image_ids ++ [did] })).toNat := by
    rw [h1, hps]
    simpa using hlen
  rw [exec_inflationary_block]
  rw [if_neg (by rw [h1]; norm_num), if_neg hlen2]
  exact ⟨rfl, rfl, rfl, rfl⟩

/-- Witness for C4's general conjunct at a concrete confluent block with
one pending input. -/
theorem c4_confluence_threshold_witness :
    (⟨BId.raw 1, [BId.raw 0], [], [1], Category.augment, true, false, 1, true, some 1,
        1, 1, some [1], [BId.gen 5], 0, 0, none, none, none, 1, augMosaic⟩ : Blk).category
      = Category.augment ∧
    (⟨BId.raw 1, [BId.raw 0], [], [1], Category.augment, true, false, 1, true, some 1,
        1, 1, some [1], [BId.gen 5], 0, 0, none, none, none, 1, augMosaic⟩ : Blk).augmentation.inflation
      = 1 / 4 ∧
    (exec_inflationary_block
        ⟨BId.raw 1, [BId.raw 0], [], [1], Category.augment, true, false, 1, true, some 1,
          1, 1, some [1], [BId.gen 5], 0, 0, none, none, none, 1, augMosaic⟩
        (BId.gen 6) (BId.gen 7) ⟨[], [], [], ⟨[], []⟩, g0, []⟩).1
      = .ok { (⟨BId.raw 1, [BId.raw 0], [], [1], Category.augment, true, false, 1, true, some 1,
          1, 1, some [1], [BId.gen 5], 0, 0, none, none, none, 1, augMosaic⟩ : Blk) with
          input_image_ids := [BId.gen 5] ++ [BId.gen 6] } :=
  ⟨rfl, by decide,
    (c4_confluence_threshold.1
      ⟨BId.raw 1, [BId.raw 0], [], [1], Category.augment, true, false, 1, true, some 1,
        1, 1, some [1], [BId.gen 5], 0, 0, none, none, none, 1, augMosaic⟩
      (BId.gen 6) (BId.gen 7) ⟨[], [], [], ⟨[], []⟩, g0, []⟩
      rfl (by decide) (by decide)).1⟩

/-- C5: compiling two equal-weight Sources that feed one shared downstream
Transform through independent branches produces exactly one compiled
Transform instance (deduplicated through `Augment.__eq__`, which compares
the augmentation's kind and parameters, the fire probability and the
resolved share), whose `prev` holds both Source instances and whose
`external_reach_prob` is the sum `1/2 + 1/2` of the two branches'
contributions. -/
theorem c5_dedup_correctness :
    (build 12 (scenShared 100 100) g0).map (fun st => augment_count st.blocks) = .ok 1 ∧
    (build 12 (scenShared 100 100) g0).map (fun st =>
      (st.blocks.filter (fun b => b.category == Category.input)).length) = .ok 2 ∧
    (build 12 (scenShared 100 100) g0).map (fun st =>
      (st.blocks.filter (fun b => b.category == Category.augment)).map
        (fun b => (b.prev.length, b.prev_ext_exe_probs, b.ext_exe_prob)))
      = .ok [(2, some [1 / 2, 1 / 2], 1 / 2 + 1 / 2)] := by
  refine ⟨by decide, by decide, by decide⟩

/-- C6: when the fire-probability draw of a confluent Transform says
skip, `_exec_augment_block` performs no fan-in accumulation: the block
(and with it the pending-input list and the whole path) is unchanged, no
augmentation is invoked (log unchanged), and the single buffered input is
copied straight through to the new data-id while the consumed entry is
deleted; every other buffer entry is untouched. -/
theorem c6_skip_path_bypasses_fan_in (b : Blk) (did ndid : BId) (st : ExecSt) (v : Pair)
    (_hconf : b.inflation < 1)
    (hskip : ¬ (st.g.vals st.g.pos < b.int_exe_prob))
    (hv : dictGet st.data did = some v) (hne : did ≠ ndid) :
    (exec_augment_block b did ndid st).1 = .ok b ∧
    (exec_augment_block b did ndid st).2.path = st.path ∧
    (exec_augment_block b did ndid st).2.log = st.log ∧
    dictGet (exec_augment_block b did ndid st).2.data ndid = some v ∧
    dictGet (exec_augment_block b did ndid st).2.data did = none ∧
    (∀ k, k ≠ did → k ≠ ndid →
      dictGet (exec_augment_block b did ndid st).2.data k = dictGet st.data k) := by
  have hfalse : (is_executed b.int_exe_prob st.g).1 = false := by
    simp [is_executed, get_random, hskip]
  have hpres : ((dictSet st.data ndid v).find? (fun e => e.1 == did)).isSome := by
    rw [show ((dictSet st.data ndid v).find? (fun e => e.1 == did))
        = st.data.find? (fun e => e.1 == did) from find?_dictSet_other _ _ _ _ hne]
    rw [dictGet] at hv
    cases hf : st.data.find? (fun e => e.1 == did) with
    | none => rw [hf] at hv; simp at hv
    | some x => simp
  rw [exec_augment_block]
  simp only [hfalse, Bool.false_eq_true, if_false]
  have hst0 : ({ st with g := (is_executed b.int_exe_prob st.g).2 } : ExecSt).data = st.data := rfl
  rw [hst0, hv]
  have hdel : dictDel (dictSet st.data ndid v) did
      = .ok ((dictSet st.data ndid v).filter (fun e => e.1 != did)) := by
    rw [dictDel, if_pos hpres]
  simp only [hdel]
  refine ⟨trivial, trivial, trivial, ?_, ?_, ?_⟩
  · rw [dictGet_filter_other _ _ _ (Ne.symm hne), dictGet_dictSet_self]
  · exact dictGet_filter_self _ _
  · intro k hkd hkn
    rw [dictGet_filter_other _ _ _ hkd, dictGet, find?_dictSet_other _ _ _ _ hkn, ← dictGet]

/-- Witness for C6 on a concrete never-firing confluent block and a
one-entry buffer. -/
theorem c6_skip_path_bypasses_fan_in_witness :
    (⟨BId.raw 1, [], [], [1], Category.augment, true, false, 1, true, some 1,
        1, 0, some [1], [], 0, 0, none, none, none, 1, augMosaic⟩ : Blk).inflation < 1 ∧
    ¬ (g0.vals g0.pos
        < (⟨BId.raw 1, [], [], [1], Category.augment, true, false, 1, true, some 1,
            1, 0, some [1], [], 0, 0, none, none, none, 1, augMosaic⟩ : Blk).int_exe_prob) ∧
    dictGet [(BId.gen 3, ((5, 6) : Pair))] (BId.gen 3) = some (5, 6) ∧
    BId.gen 3 ≠ BId.gen 4 ∧
    (exec_augment_block
        ⟨BId.raw 1, [], [], [1], Category.augment, true, false, 1, true, some 1,
          1, 0, some [1], [], 0, 0, none, none, none, 1, augMosaic⟩
        (BId.gen 3) (BId.gen 4)
        ⟨[], [], [(BId.gen 3, (5, 6))], ⟨[], []⟩, g0, []⟩).1
      = .ok ⟨BId.raw 1, [], [], [1], Category.augment, true, false, 1, true, some 1,
          1, 0, some [1], [], 0, 0, none, none, none, 1, augMosaic⟩ :=
  ⟨by decide, by decide, by decide, by decide,
    (c6_skip_path_bypasses_fan_in
      ⟨BId.raw 1, [], [], [1], Category.augment, true, false, 1, true, some 1,
        1, 0, some [1], [], 0, 0, none, none, none, 1, augMosaic⟩
      (BId.gen 3) (BId.gen 4)
      ⟨[], [], [(BId.gen 3, (5, 6))], ⟨[], []⟩, g0, []⟩ (5, 6)
      (by decide) (by decide) (by decide) (by decide)).1⟩

/-- C7 counterexample: the claim says `Blocks.build` fails with a
`ConfigError` whenever a declared next id is absent from the node list;
on this workflow, whose Source declares a second branch toward the
nonexistent id 2, `build` succeeds and returns a 3-block graph. -/
theorem c7_counterexample :
    (build 12 scenDangling g0).map (fun st => st.blocks.length) = .ok 3 := by
  decide

/-- C7 as amended: there is no `ConfigError` in the code.  A workflow
with no sink fails with the `ValueError` of `_get_output_blocks`; a
declared next id absent from the node list does not fail at all (the
chain is silently truncated, here leaving a 3-block graph); a shares list
longer than the `next` list fails with an uncaught `IndexError` from
`Block.set`. -/
theorem c7_amended :
    (build 12 scenNoSink g0).map (fun st => st.blocks.length) = .error .valueError ∧
    (build 12 scenDangling g0).map (fun st => st.blocks.length) = .ok 3 ∧
    (build 12 scenMismatch g0).map (fun st => st.blocks.length) = .error .indexError := by
  refine ⟨by decide, by decide, by decide⟩

/-- C8: a fetch (compilation, path sampling, fire decisions, data-id
generation and dataset selection included) reads randomness only from the
single shared generator and data only from the bound datasets, so two
fetches from equal generator states over equal dataset contents and equal
workflows return identical results. -/
theorem c8_fetch_deterministic (fuel : Nat) (r₁ r₂ : List RawNode)
    (d₁ d₂ : List Dataset) (g₁ g₂ : RNG)
    (hr : r₁ = r₂) (hd : d₁ = d₂) (hg : g₁ = g₂) :
    agent_fetch fuel r₁ d₁ g₁ = agent_fetch fuel r₂ d₂ g₂ := by
  subst hr
  subst hd
  subst hg
  rfl

/-- Witness for C8 on the Scenario-C workflow. -/
theorem c8_fetch_deterministic_witness :
    scenC = scenC ∧ [dsPlain] = [dsPlain] ∧ g0 = g0 ∧
    agent_fetch 20 scenC [dsPlain] g0 = agent_fetch 20 scenC [dsPlain] g0 :=
  ⟨rfl, rfl, rfl,
    c8_fetch_deterministic 20 scenC scenC [dsPlain] [dsPlain] g0 g0 rfl rfl rfl⟩

/-- C9: the claim says each seeding draw passes the Source's resolved
filter to `Dataset.fetch`.  The code calls `fetch()` with no argument: in
this run the Source's resolved filter is 7 — which admits only package 1,
the pair `(2, 2)` — yet all four logged dataset calls carry filter `None`
and the items actually drawn are four copies of package 0, the pair
`(1, 1)`, which the filter excludes. -/
theorem c9_filter_not_passed :
    (executor_init 20 scenCF [dsFiltered] g0).map (fun st =>
      let r := executor_fetch 20 st
      (r.1, r.2.log.filter (fun e => !e.isApply), r.2.path.inputs.map (fun b => b.filterSel)))
      = .ok (.ok (apply_multi augMosaic [1, 1, 1, 1] [1, 1, 1, 1]),
             [Event.dsFetch 0 none, Event.dsFetch 0 none, Event.dsFetch 0 none,
              Event.dsFetch 0 none],
             [some 7]) ∧
    dsFiltered.filter_indexes.find? (fun kv => kv.1 == 7) = some (7, [1]) ∧
    dsFiltered.data_packages.get? 1 = some (2, 2) ∧
    dsFiltered.data_packages.get? 0 = some (1, 1) := by
  refine ⟨by decide, by decide, by decide, by decide⟩

end

end Daugx
